import Mathlib

/-!
Verification of the `MC_Sim` Monte-Carlo dice simulator (classes `Die`,
`Game`, `Analyzer`).

The Python code works over pandas `DataFrame`s.  A frame is embedded as
`PFrame κ ι α`: an optional index name, a list of index labels (type `ι`),
and a list of named columns (`κ × List α`).  Faces are embedded as `ℤ`,
weights as `ℚ` (Python floats are used only to hold values set by the user;
we model them as exact rationals).  Raising an exception is embedded as
returning `Except.error` of the corresponding error kind.

Randomness (`np.random.choice`) is factored out: sampling functions are
taken as explicit parameters, and `Game.playWith` supplies the per-die roll
outcomes directly so that the table-building logic of `Game.play` can be
studied independently of the sampler.

Python object identity (which tables are copies and which are aliases, and
what replaying a game does to an `Analyzer`'s captured reference) is
embedded separately by a small heap model: `DieSys` and `Sys` keep all
allocated frames in a list, and objects hold indices (references) into it.
-/

namespace MCSim

/-- The kinds of Python exceptions raised by the code. -/
inductive Err where
  | typeError
  | valueError
  | indexError
  | keyError
deriving DecidableEq

instance {ε α : Type} [DecidableEq ε] [DecidableEq α] : DecidableEq (Except ε α) :=
  fun a b =>
    match a, b with
    | Except.ok x, Except.ok y => decidable_of_iff (x = y) (by simp)
    | Except.error x, Except.error y => decidable_of_iff (x = y) (by simp)
    | Except.ok _, Except.error _ => isFalse (by simp)
    | Except.error _, Except.ok _ => isFalse (by simp)

/-- A pandas `DataFrame`: an optional index name, index labels of type `ι`,
and named columns (`κ` names, `α` cells).  Columns are kept in order. -/
structure PFrame (κ ι α : Type) where
  indexName : Option String
  index : List ι
  cols : List (κ × List α)
deriving DecidableEq

/-- `df[name]`: column selection; `none` models a `KeyError`. -/
def PFrame.colGet {κ ι α : Type} [DecidableEq κ] (t : PFrame κ ι α) (name : κ) :
    Option (List α) :=
  (t.cols.find? (fun c => decide (c.1 = name))).map Prod.snd

/-- `df.loc[lab, cname] = v` for an existing unique index label and an
existing column: writes the cell at the row position of `lab`. -/
def PFrame.setCell {κ ι α : Type} [DecidableEq κ] [DecidableEq ι]
    (t : PFrame κ ι α) (lab : ι) (cname : κ) (v : α) : PFrame κ ι α :=
  { t with cols := t.cols.map (fun c =>
      if c.1 = cname then (c.1, c.2.set (t.index.indexOf lab) v) else c) }

/-- Row `i` of a frame, in column order (`df.iloc[i]` across columns). -/
def PFrame.rowAt {κ ι α : Type} [Inhabited α] (t : PFrame κ ι α) (i : ℕ) : List α :=
  t.cols.map (fun c => c.2.getD i default)

/-- The rows of a frame, in index order. -/
def PFrame.rows {κ ι α : Type} [Inhabited α] (t : PFrame κ ι α) : List (List α) :=
  (List.range t.index.length).map t.rowAt

/-- Every cell of a frame, row-major. -/
def PFrame.allCells {κ ι α : Type} [Inhabited α] (t : PFrame κ ι α) : List α :=
  t.rows.flatten

/-! ## Die (`class Die`) -/

/-- A `Die` object: `self.sides` (the constructor argument) and `self.die`,
the `DataFrame` with index `Faces` and one column `Weight`. -/
structure Die where
  sides : List ℤ
  die : PFrame String ℤ ℚ
deriving DecidableEq

/-- `Die.__init__(sides)`.  The `isinstance(sides, np.ndarray)` guard is a
host-language type test; inputs are embedded as lists, so that branch is
outside the embedding.  Uniqueness is tested by comparing `len(sides)` with
`len(set(sides))`.  The weights array is built starting from `[1]` and
appending `1`s up to `len(sides)`, so it has length `max 1 (len sides)`;
`pd.DataFrame` raises `ValueError` when the column lengths differ (the
empty-`sides` case). -/
def Die.init (sides : List ℤ) : Except Err Die :=
  if sides.length = sides.dedup.length then
    let weights : List ℚ := List.replicate (max 1 sides.length) 1
    if weights.length = sides.length then
      Except.ok
        { sides := sides
          die := { indexName := some "Faces", index := sides,
                   cols := [("Weight", weights)] } }
    else Except.error Err.valueError
  else Except.error Err.valueError

/-- `Die.change_weight(face, new_weight)`.  The `float(new_weight)`
conversion cannot fail on a `ℚ` input, so the `TypeError` branch is outside
the embedding; the remaining checks and the `self.die.loc[face, 'Weight']`
assignment are embedded directly. -/
def Die.change_weight (d : Die) (face : ℤ) (new_weight : ℚ) :
    Except Err Die :=
  if face ∈ d.sides then
    if new_weight < 0 then Except.error Err.valueError
    else Except.ok { d with die := d.die.setCell face "Weight" new_weight }
  else Except.error Err.indexError

/-- `Die.roll_die(roll)`.  The body reads `self.die['Weights']`; the frame's
weight column is named `'Weight'`, so the lookup is a `KeyError` whenever
that column is absent.  `sample` stands for the draws of
`np.random.choice`: draw `i` selects position `sample i` (mod the number of
faces) of the index.  `np.random.choice` raises `ValueError` when the
probability vector is degenerate (all weights `0` make `probs` NaN). -/
def Die.roll_die (d : Die) (roll : ℕ) (sample : ℕ → ℕ) :
    Except Err (List ℤ) :=
  match d.die.colGet "Weights" with
  | none => Except.error Err.keyError
  | some ws =>
      if ws.sum ≤ 0 then Except.error Err.valueError
      else Except.ok ((List.range roll).map
        (fun i => d.die.index.getD (sample i % d.die.index.length) 0))

/-- `Die.show_die()`: returns `self.die.copy()`.  At the level of values the
copy equals the internal table; the object-identity content of `.copy()` is
embedded in `DieSys.show_die` below. -/
def Die.show_die (d : Die) : PFrame String ℤ ℚ :=
  d.die

/-- The stored weight of face `f`: cell of column `Weight` at the row
position of `f`. -/
def Die.weightOf (d : Die) (f : ℤ) : ℚ :=
  ((d.die.colGet "Weight").getD []).getD (d.die.index.indexOf f) 0

/-- The representation invariant of a `Die` object's frame: the index is
the face array, there is exactly one column, named `Weight`, and it has one
cell per face.  The constructor establishes it and `change_weight`
preserves it (see `init_establishes_wf` and `change_weight_preserves_wf`),
so every die reachable through the class's API — whatever weights it
currently holds — satisfies it. -/
def Die.WF (d : Die) : Prop :=
  d.die.index = d.sides
  ∧ d.die.cols.map Prod.fst = ["Weight"]
  ∧ ∀ c ∈ d.die.cols, c.2.length = d.sides.length

instance (d : Die) : Decidable d.WF := by
  unfold Die.WF
  infer_instance

/-! ## Game (`class Game`) -/

/-- A `Game` object: `self.dice` and `self.results`
(`None` until `play` is called). -/
structure Game where
  dice : List Die
  results : Option (PFrame String String ℤ)
deriving DecidableEq

/-- The frame built by `Game.play`:
`pd.DataFrame({f'die_{i}': outs[i]}, index=[f'roll_{k+1}'])`.
The dict keys become the columns (in die order) and the index is the list
`roll_1 .. roll_n`; the index is not given a name. -/
def mkResults (outs : List (List ℤ)) (n_rolls : ℕ) : PFrame String String ℤ :=
  { indexName := none
    index := (List.range n_rolls).map (fun i => "roll_" ++ toString (i + 1))
    cols := outs.enum.map (fun (p : ℕ × List ℤ) => ("die_" ++ toString p.1, p.2)) }

/-- `Game.play(n_rolls)` with each die's `roll_die` output supplied
directly: `outs` lists, per die in order, the sequence of outcomes that
`die.roll_die(n_rolls)` produced.  This factors the sampler (and the
column-name defect inside `roll_die`) out of the table-building logic. -/
def Game.playWith (g : Game) (outs : List (List ℤ)) (n_rolls : ℕ) :
    Game :=
  { g with results := some (mkResults outs n_rolls) }

/-- `Game.play(n_rolls)` as written: calls `die.roll_die(n_rolls)` for every
die (die `i` sampling with `sample i`) and stores the resulting frame. -/
def Game.play (g : Game) (n_rolls : ℕ) (sample : ℕ → ℕ → ℕ) :
    Except Err Game :=
  (g.dice.enum.mapM (fun (p : ℕ × Die) => p.2.roll_die n_rolls (sample p.1))).map
    (fun outs => g.playWith outs n_rolls)

/-- The long-format frame produced by
`results.reset_index().melt(id_vars=['Roll'], var_name='Die',
value_name='Face')`: rows `(Roll, Die, Face)` in pandas `melt` order
(all rows of the first die column, then all rows of the second, ...). -/
structure NarrowDF where
  rows : List (String × String × ℤ)
deriving DecidableEq

/-- `reset_index().melt(id_vars=['Roll'], ...)`.  `reset_index` turns the
index into a data column named after the index name — `"index"` when the
index is unnamed.  `melt` raises a `KeyError` when an `id_vars` entry is not
a column of the frame.  (`play` names the data columns `die_i`, so only the
reset index column can be named `Roll`.) -/
def meltRollDieFace (df : PFrame String String ℤ) : Except Err NarrowDF :=
  if df.indexName.getD "index" = "Roll" then
    Except.ok
      { rows := df.cols.flatMap (fun c =>
          (df.index.zip c.2).map (fun p => (p.1, c.1, p.2))) }
  else Except.error Err.keyError

/-- The two result shapes of `Game.show`. -/
inductive ShowOut where
  | wide (df : PFrame String String ℤ)
  | narrow (df : NarrowDF)
deriving DecidableEq

/-- `Game.show(form)`: raises `ValueError` when `self.results is None`;
returns `self.results` for `'wide'`, the melted frame for `'narrow'`, and
raises `ValueError` for any other `form`. -/
def Game.show (g : Game) (form : String) : Except Err ShowOut :=
  match g.results with
  | none => Except.error Err.valueError
  | some res =>
      if form = "wide" then Except.ok (ShowOut.wide res)
      else if form = "narrow" then (meltRollDieFace res).map ShowOut.narrow
      else Except.error Err.valueError

/-! ## Analyzer (`class Analyzer`) -/

/-- Occurrence count of `x` in `l` (the count paired with each key by
`valueCounts`). -/
def countOcc {α : Type} [DecidableEq α] (x : α) (l : List α) : ℕ :=
  l.count x

/-- `Series.value_counts()`: the distinct values of `l` paired with their
occurrence counts, ordered by descending count (stable, so equal counts
keep first-appearance order; pandas fixes no tie order). -/
def valueCounts {α : Type} [DecidableEq α] (l : List α) : List (α × ℕ) :=
  (l.dedup.map (fun x => (x, countOcc x l))).insertionSort (fun a b => b.2 ≤ a.2)

/-- An `Analyzer` object: `self.game` (a reference to the game, re-read by
`combo_count`/`perm_count`) and `self._results` (the wide frame captured at
construction). -/
structure Analyzer where
  game : Game
  results : PFrame String String ℤ
deriving DecidableEq

/-- `Analyzer.__init__(game)`: the `isinstance(game, Game)` guard is a
host-language type test (inputs are embedded as `Game` values); construction
stores the game and `game.show(form='wide')`, propagating its error.
`show "wide"` only ever produces a wide frame, so the last branch is
unreachable. -/
def Analyzer.init (g : Game) : Except Err Analyzer :=
  match g.show "wide" with
  | Except.error e => Except.error e
  | Except.ok (ShowOut.wide df) => Except.ok { game := g, results := df }
  | Except.ok (ShowOut.narrow _) => Except.error Err.valueError

/-- `Analyzer.jackpot()`: `(self._results.nunique(axis=1) == 1).sum()` —
the number of rows whose distinct-value count is `1`. -/
def Analyzer.jackpot (res : PFrame String String ℤ) : ℕ :=
  res.rows.countP (fun r => decide (r.dedup.length = 1))

/-- `Analyzer.face_counts()`:
`self._results.apply(pd.Series.value_counts, axis=1).fillna(0).astype(int)`.
Aligning the per-row `value_counts` results produces one column per face
value observed anywhere, in sorted order; a face absent from a row counts
`0` there (the filled NaN). -/
def Analyzer.face_counts (res : PFrame String String ℤ) : PFrame ℤ String ℕ :=
  { indexName := res.indexName
    index := res.index
    cols := (res.allCells.dedup.insertionSort (· ≤ ·)).map
      (fun f => (f, res.rows.map (fun r => r.count f))) }

/-- The grouping key of `combo_count`: `tuple(sorted(x))` of a row. -/
def comboKey (r : List ℤ) : List ℤ :=
  r.insertionSort (· ≤ ·)

/-- `Analyzer.combo_count()` applied to a wide frame: sort each row, then
`value_counts` over the sorted tuples.  (The method reads the frame from
`self.game.show('wide')`, not from `self._results`; that is embedded in
`Sys.comboAt` below.) -/
def Analyzer.combo_count (res : PFrame String String ℤ) : List (List ℤ × ℕ) :=
  valueCounts (res.rows.map comboKey)

/-- `Analyzer.perm_count()` applied to a wide frame: `value_counts` over the
rows as tuples.  (Reads `self.game.show('wide')`, embedded in `Sys.permAt`
below.) -/
def Analyzer.perm_count (res : PFrame String String ℤ) : List (List ℤ × ℕ) :=
  valueCounts res.rows

/-! ## Object identity: heap models

Python returns frames by reference; `.copy()` allocates a fresh frame, a
bare `return self.results` returns the internal object, and a new `play`
rebinds `self.results` to a freshly allocated frame while any older frame —
such as the one an `Analyzer` captured — stays in the heap unchanged.  A
heap is a list of frames; a reference is an index into it. -/

/-- An empty wide frame (heap-read default). -/
def emptyWide : PFrame String String ℤ :=
  { indexName := none, index := [], cols := [] }

/-- An empty die frame (heap-read default). -/
def emptyDieDF : PFrame String ℤ ℚ :=
  { indexName := none, index := [], cols := [] }

/-- A die together with the heap of die frames: `sides` and the reference
`dieRef` held by the `self.die` attribute. -/
structure DieSys where
  heap : List (PFrame String ℤ ℚ)
  sides : List ℤ
  dieRef : ℕ
deriving DecidableEq

/-- `Die.show_die()` in the heap model: `self.die.copy()` allocates a fresh
frame with the same contents and returns a reference to it. -/
def DieSys.show_die (s : DieSys) : DieSys × ℕ :=
  ({ s with heap := s.heap ++ [s.heap.getD s.dieRef emptyDieDF] }, s.heap.length)

/-- In-place mutation of the frame a reference points to (what a caller
does when it mutates a returned table). -/
def DieSys.write (s : DieSys) (r : ℕ) (v : PFrame String ℤ ℚ) : DieSys :=
  { s with heap := s.heap.set r v }

/-- The die's internal face→weight table (`self.die`). -/
def DieSys.table (s : DieSys) : PFrame String ℤ ℚ :=
  s.heap.getD s.dieRef emptyDieDF

/-- A game together with the heap of wide frames: `gameResults` is the
reference held by `self.results` (`none` before any play). -/
structure Sys where
  heap : List (PFrame String String ℤ)
  gameResults : Option ℕ
deriving DecidableEq

/-- Dereference a frame. -/
def Sys.readDF (s : Sys) (r : ℕ) : PFrame String String ℤ :=
  s.heap.getD r emptyWide

/-- In-place mutation of the frame a reference points to. -/
def Sys.writeDF (s : Sys) (r : ℕ) (df : PFrame String String ℤ) : Sys :=
  { s with heap := s.heap.set r df }

/-- `Game.play` in the heap model: `self.results = pd.DataFrame(...)`
allocates a fresh frame and rebinds the attribute to it; the previously
referenced frame (if any) is left in the heap unchanged. -/
def Sys.playG (s : Sys) (outs : List (List ℤ)) (n_rolls : ℕ) : Sys :=
  { heap := s.heap ++ [mkResults outs n_rolls], gameResults := some s.heap.length }

/-- `Game.show('wide')` in the heap model: `return self.results` returns
the internal reference itself (no copy); `ValueError` when unplayed. -/
def Sys.showWideRef (s : Sys) : Except Err ℕ :=
  match s.gameResults with
  | none => Except.error Err.valueError
  | some r => Except.ok r

/-- `Analyzer.__init__` in the heap model: `self._results =
game.show(form='wide')` captures the game's current results reference. -/
def Sys.analyzerSnap (s : Sys) : Except Err ℕ :=
  s.showWideRef

/-- The game's internal results table, dereferenced (`self.results`). -/
def Sys.gameTable (s : Sys) : Option (PFrame String String ℤ) :=
  s.gameResults.map s.readDF

/-- `Analyzer.jackpot()` in the heap model: computes over the captured
`self._results` snapshot reference `snap`. -/
def Sys.jackpotAt (s : Sys) (snap : ℕ) : ℕ :=
  Analyzer.jackpot (s.readDF snap)

/-- `Analyzer.face_counts()` in the heap model: computes over the captured
snapshot reference `snap`. -/
def Sys.faceCountsAt (s : Sys) (snap : ℕ) : PFrame ℤ String ℕ :=
  Analyzer.face_counts (s.readDF snap)

/-- `Analyzer.combo_count()` in the heap model: re-reads
`self.game.show('wide')` — the game's current results reference — ignoring
the captured snapshot. -/
def Sys.comboAt (s : Sys) (_snap : ℕ) : Except Err (List (List ℤ × ℕ)) :=
  (s.showWideRef).map (fun r => Analyzer.combo_count (s.readDF r))

/-- `Analyzer.perm_count()` in the heap model: re-reads
`self.game.show('wide')`, ignoring the captured snapshot. -/
def Sys.permAt (s : Sys) (_snap : ℕ) : Except Err (List (List ℤ × ℕ)) :=
  (s.showWideRef).map (fun r => Analyzer.perm_count (s.readDF r))

/-! ## Basic lemmas about the embedding -/

theorem mkResults_index_length (outs : List (List ℤ)) (n : ℕ) :
    (mkResults outs n).index.length = n := by
  simp [mkResults]

theorem mkResults_cols_length (outs : List (List ℤ)) (n : ℕ) :
    (mkResults outs n).cols.length = outs.length := by
  simp [mkResults]

theorem rowAt_length {κ ι α : Type} [Inhabited α] (t : PFrame κ ι α) (i : ℕ) :
    (t.rowAt i).length = t.cols.length := by
  simp [PFrame.rowAt]

theorem rows_length {κ ι α : Type} [Inhabited α] (t : PFrame κ ι α) :
    t.rows.length = t.index.length := by
  simp [PFrame.rows]

theorem mem_rows {κ ι α : Type} [Inhabited α] {t : PFrame κ ι α} {r : List α}
    (h : r ∈ t.rows) : ∃ i, i < t.index.length ∧ r = t.rowAt i := by
  rcases List.mem_map.1 h with ⟨i, hi, rfl⟩
  exact ⟨i, List.mem_range.1 hi, rfl⟩

theorem rowAt_mem_rows {κ ι α : Type} [Inhabited α] (t : PFrame κ ι α) {i : ℕ}
    (hi : i < t.index.length) : t.rowAt i ∈ t.rows :=
  List.mem_map.2 ⟨i, List.mem_range.2 hi, rfl⟩

theorem mem_allCells_of_mem_row {κ ι α : Type} [Inhabited α] {t : PFrame κ ι α}
    {r : List α} (hr : r ∈ t.rows) {x : α} (hx : x ∈ r) : x ∈ t.allCells :=
  List.mem_flatten.2 ⟨r, hr, hx⟩

theorem valueCounts_map_snd_sum {α : Type} [DecidableEq α] (l : List α) :
    ((valueCounts l).map Prod.snd).sum = l.length := by
  have h1 : ((valueCounts l).map Prod.snd).Perm
      ((l.dedup.map (fun x => (x, countOcc x l))).map Prod.snd) :=
    (List.perm_insertionSort _ _).map _
  rw [h1.sum_eq, List.map_map]
  have h2 : (Prod.snd ∘ fun x => (x, countOcc x l)) = fun x => l.count x := rfl
  rw [h2]
  exact List.sum_map_count_dedup_eq_length l

theorem valueCounts_keys_nodup {α : Type} [DecidableEq α] (l : List α) :
    ((valueCounts l).map Prod.fst).Nodup := by
  have h1 : ((valueCounts l).map Prod.fst).Perm
      ((l.dedup.map (fun x => (x, countOcc x l))).map Prod.fst) :=
    (List.perm_insertionSort _ _).map _
  rw [h1.nodup_iff, List.map_map]
  have h2 : (Prod.fst ∘ fun x => (x, countOcc x l)) = id := rfl
  rw [h2, List.map_id]
  exact l.nodup_dedup

theorem mem_valueCounts {α : Type} [DecidableEq α] {l : List α} {x : α}
    (hx : x ∈ l) : (x, countOcc x l) ∈ valueCounts l := by
  unfold valueCounts
  rw [List.mem_insertionSort]
  exact List.mem_map.2 ⟨x, List.mem_dedup.2 hx, rfl⟩

theorem comboKey_eq_of_perm {r1 r2 : List ℤ} (h : r1.Perm r2) :
    comboKey r1 = comboKey r2 :=
  List.eq_of_perm_of_sorted
    ((List.perm_insertionSort _ r1).trans (h.trans (List.perm_insertionSort _ r2).symm))
    (List.sorted_insertionSort _ r1) (List.sorted_insertionSort _ r2)

theorem sum_map_count_of_superset (r L : List ℤ) (hnd : L.Nodup)
    (hsub : ∀ x ∈ r, x ∈ L) :
    (L.map (fun f => r.count f)).sum = r.length := by
  rw [← List.sum_toFinset _ hnd]
  have hsubset : r.toFinset ⊆ L.toFinset := by
    intro x hx
    exact List.mem_toFinset.2 (hsub x (List.mem_toFinset.1 hx))
  rw [← Finset.sum_subset hsubset (fun x _ hxr =>
    List.count_eq_zero.2 (fun hmem => hxr (List.mem_toFinset.2 hmem)))]
  exact List.sum_toFinset_count_eq_length r

theorem getD_append_left {α : Type} (l l' : List α) (i : ℕ) (d : α)
    (h : i < l.length) : (l ++ l').getD i d = l.getD i d := by
  simp [List.getD_eq_getElem?_getD, List.getElem?_append_left h]

theorem getD_append_length {α : Type} (l : List α) (x : α) (d : α) :
    (l ++ [x]).getD l.length d = x := by
  simp [List.getD_eq_getElem?_getD, List.getElem?_append_right (Nat.le_refl _)]

theorem getD_set_self {α : Type} (l : List α) (i : ℕ) (v d : α)
    (h : i < l.length) : (l.set i v).getD i d = v := by
  simp [List.getD_eq_getElem?_getD, List.getElem?_set_self h]

theorem getD_set_ne {α : Type} (l : List α) {i j : ℕ} (v d : α) (h : j ≠ i) :
    (l.set j v).getD i d = l.getD i d := by
  simp [List.getD_eq_getElem?_getD, List.getElem?_set_ne h]

theorem mkResults_rowAt (outs : List (List ℤ)) (n i : ℕ) :
    (mkResults outs n).rowAt i = outs.map (fun o => o.getD i 0) := by
  show (outs.enum.map _).map _ = _
  rw [List.map_map]
  have h1 : ((fun c : String × List ℤ => c.2.getD i default) ∘
      (fun p : ℕ × List ℤ => ("die_" ++ toString p.1, p.2))) =
      ((fun o : List ℤ => o.getD i 0) ∘ Prod.snd) := rfl
  rw [h1, ← List.map_map, List.enum_eq_enumFrom, List.enumFrom_map_snd]

/-! ## Claims -/

/-- C1: the claim says that for every valid `Die` and every `n ≥ 0`,
`roll_die` returns an ordered sequence of exactly `n` values from the die's
face set.  On the code as written this fails for every die and every `n`:
`roll_die` reads `self.die['Weights']`, but the constructor names the weight
column `'Weight'`, so every call raises a `KeyError` instead of returning a
list.  This theorem shows that for every `sides` input, whenever
construction succeeds the resulting die's `roll_die` raises `KeyError`, for
every roll count and every sampler. -/
theorem C1_roll_die_always_keyError (sides : List ℤ) (n : ℕ) (sample : ℕ → ℕ) :
    (Die.init sides).map (fun d => d.roll_die n sample) =
      (Die.init sides).map
        (fun _ => (Except.error Err.keyError : Except Err (List ℤ))) := by
  unfold Die.init
  split
  · dsimp only
    split
    · simp only [Except.map]
      rfl
    · rfl
  · rfl

/-- C2: the claim says `show('wide')` has shape `(n_rolls, d)` and
`show('narrow')` returns a `Roll`/`Die`/`Face` unpivot.  The narrow half
fails on the code for every played game: `play` builds the results frame
with an unnamed index, so `reset_index()` produces a column named `index`,
and `melt(id_vars=['Roll'])` raises a `KeyError`.  This theorem shows
`show('narrow')` raises `KeyError` for every game, every outcome table and
every roll count. -/
theorem C2_show_narrow_always_keyError (g : Game) (outs : List (List ℤ))
    (n : ℕ) :
    (g.playWith outs n).show "narrow" = Except.error Err.keyError := by
  simp [Game.playWith, Game.show, mkResults, meltRollDieFace, Except.map]

/-- C3 counterexample: the claim says mutating any returned table leaves
the component's internal state unchanged.  For `Game.show('wide')` this is
false: `show` returns the internal results object itself, so overwriting
the returned table changes the game's internal results.  Concretely: play a
one-die game once, obtain the reference `show('wide')` returns (it is the
game's own results reference), overwrite the frame it points to — the
game's internal table has changed. -/
theorem C3_counterexample :
    (Sys.playG { heap := [], gameResults := none } [[1]] 1).showWideRef =
      Except.ok 0
    ∧ ((Sys.playG { heap := [], gameResults := none } [[1]] 1).writeDF 0
          (mkResults [[5]] 1)).gameTable
        ≠ (Sys.playG { heap := [], gameResults := none } [[1]] 1).gameTable := by
  decide

/-- C3 (amended): `Die.show_die` does return an independent copy — mutating
the returned table leaves the die's internal table unchanged — but
`Game.show('wide')` returns the internal results object itself, not a copy:
the reference it returns is the game's own results reference, so writing
through it rewrites the game's internal table. -/
theorem C3_copy_vs_alias :
    (∀ (s : DieSys) (v : PFrame String ℤ ℚ), s.dieRef < s.heap.length →
      ((s.show_die.1).write s.show_die.2 v).table = s.table)
    ∧ (∀ (t : Sys) (r : ℕ) (v : PFrame String String ℤ),
        t.showWideRef = Except.ok r → r < t.heap.length →
        (t.writeDF r v).gameTable = some v) := by
  constructor
  · intro s v h
    show ((s.heap ++ [s.heap.getD s.dieRef emptyDieDF]).set s.heap.length v).getD
        s.dieRef emptyDieDF = s.heap.getD s.dieRef emptyDieDF
    rw [getD_set_ne _ _ _ (Nat.ne_of_gt h)]
    exact getD_append_left _ _ _ _ h
  · intro t r v hshow hlt
    have hres : t.gameResults = some r := by
      unfold Sys.showWideRef at hshow
      split at hshow
      · exact absurd hshow (by simp)
      · rename_i x heq
        cases hshow
        exact heq
    show (t.writeDF r v).gameResults.map (t.writeDF r v).readDF = some v
    simp only [Sys.writeDF, Sys.readDF, hres, Option.map_some']
    rw [getD_set_self _ _ _ _ hlt]

/-- C3 witness: the amended statement at concrete inputs — copying a
one-frame die heap and mutating the copy leaves the die table unchanged,
and writing the table returned by `show('wide')` of a freshly played game
replaces the game's internal table. -/
theorem C3_copy_vs_alias_witness :
    ((({ heap := [emptyDieDF], sides := [1], dieRef := 0 } : DieSys).show_die.1).write
        ({ heap := [emptyDieDF], sides := [1], dieRef := 0 } : DieSys).show_die.2
        emptyDieDF).table
      = ({ heap := [emptyDieDF], sides := [1], dieRef := 0 } : DieSys).table
    ∧ ((Sys.playG { heap := [], gameResults := none } [[2]] 1).writeDF 0
        (mkResults [[7]] 1)).gameTable = some (mkResults [[7]] 1) :=
  ⟨C3_copy_vs_alias.1 _ _ (by decide),
   C3_copy_vs_alias.2 _ 0 _ (by decide) (by decide)⟩

/-- C4 counterexample: the claim says every analyzer method is unchanged
when the game is played again after analyzer construction.  False for
`combo_count` (and `perm_count`): they re-read `self.game.show('wide')`.
Concretely: play a one-die game (outcome 1), capture the analyzer snapshot
(reference 0), replay the game (outcome 2) — `combo_count` now returns the
counts of the new table. -/
theorem C4_counterexample :
    (Sys.playG { heap := [], gameResults := none } [[1]] 1).analyzerSnap =
      Except.ok 0
    ∧ ((Sys.playG { heap := [], gameResults := none } [[1]] 1).playG [[2]] 1).comboAt 0
        ≠ (Sys.playG { heap := [], gameResults := none } [[1]] 1).comboAt 0 := by
  decide

/-- C4 (amended): after the game is replayed, `jackpot` and `face_counts`
are unchanged — they compute over the `self._results` snapshot captured at
analyzer construction — while `combo_count` and `perm_count` re-read the
game and return the counts of the game's new results table. -/
theorem C4_snapshot_vs_reread (s : Sys) (snap : ℕ) (outs : List (List ℤ))
    (n : ℕ) (h : snap < s.heap.length) :
    (s.playG outs n).jackpotAt snap = s.jackpotAt snap
    ∧ (s.playG outs n).faceCountsAt snap = s.faceCountsAt snap
    ∧ (s.playG outs n).comboAt snap =
        Except.ok (Analyzer.combo_count (mkResults outs n))
    ∧ (s.playG outs n).permAt snap =
        Except.ok (Analyzer.perm_count (mkResults outs n)) := by
  have hread : (s.playG outs n).readDF snap = s.readDF snap := by
    show (s.heap ++ [mkResults outs n]).getD snap emptyWide =
      s.heap.getD snap emptyWide
    exact getD_append_left _ _ _ _ h
  have hnew : (s.playG outs n).readDF s.heap.length = mkResults outs n := by
    show (s.heap ++ [mkResults outs n]).getD s.heap.length emptyWide =
      mkResults outs n
    exact getD_append_length _ _ _
  refine ⟨?_, ?_, ?_, ?_⟩
  · show Analyzer.jackpot ((s.playG outs n).readDF snap) = _
    rw [hread]; rfl
  · show Analyzer.face_counts ((s.playG outs n).readDF snap) = _
    rw [hread]; rfl
  · show ((s.playG outs n).showWideRef).map
        (fun r => Analyzer.combo_count ((s.playG outs n).readDF r)) = _
    show (Except.ok s.heap.length).map
        (fun r => Analyzer.combo_count ((s.playG outs n).readDF r)) = _
    simp only [Except.map, hnew]
  · show ((s.playG outs n).showWideRef).map
        (fun r => Analyzer.perm_count ((s.playG outs n).readDF r)) = _
    show (Except.ok s.heap.length).map
        (fun r => Analyzer.perm_count ((s.playG outs n).readDF r)) = _
    simp only [Except.map, hnew]

/-- C4 witness: the amended statement at concrete inputs — one replay of a
one-die game, snapshot reference 0. -/
theorem C4_snapshot_vs_reread_witness :
    ((Sys.playG { heap := [], gameResults := none } [[1]] 1).playG [[2]] 1).jackpotAt 0
      = (Sys.playG { heap := [], gameResults := none } [[1]] 1).jackpotAt 0
    ∧ ((Sys.playG { heap := [], gameResults := none } [[1]] 1).playG [[2]] 1).faceCountsAt 0
      = (Sys.playG { heap := [], gameResults := none } [[1]] 1).faceCountsAt 0
    ∧ ((Sys.playG { heap := [], gameResults := none } [[1]] 1).playG [[2]] 1).comboAt 0
      = Except.ok (Analyzer.combo_count (mkResults [[2]] 1))
    ∧ ((Sys.playG { heap := [], gameResults := none } [[1]] 1).playG [[2]] 1).permAt 0
      = Except.ok (Analyzer.perm_count (mkResults [[2]] 1)) :=
  C4_snapshot_vs_reread _ 0 [[2]] 1 (by decide)

/-- C5: over a game whose current results table holds `n_rolls` rolls, the
`combo_count` occurrence counts sum to `n_rolls`, the `perm_count` counts
sum to `n_rolls`, rolls that are permutations of one multiset share one
combination key (`tuple(sorted(x))`), each key appears once in
`combo_count`, and every distinct ordered roll is its own entry of
`perm_count`. -/
theorem C5_combo_perm_counts (outs : List (List ℤ)) (n : ℕ)
    (_hrect : ∀ o ∈ outs, o.length = n) :
    ((Analyzer.combo_count (mkResults outs n)).map Prod.snd).sum = n
    ∧ ((Analyzer.perm_count (mkResults outs n)).map Prod.snd).sum = n
    ∧ (∀ r1 r2 : List ℤ, r1.Perm r2 → comboKey r1 = comboKey r2)
    ∧ ((Analyzer.combo_count (mkResults outs n)).map Prod.fst).Nodup
    ∧ (∀ r ∈ (mkResults outs n).rows,
        (r, countOcc r (mkResults outs n).rows) ∈
          Analyzer.perm_count (mkResults outs n)) := by
  refine ⟨?_, ?_, fun r1 r2 h => comboKey_eq_of_perm h,
    valueCounts_keys_nodup _, fun r hr => mem_valueCounts hr⟩
  · unfold Analyzer.combo_count
    rw [valueCounts_map_snd_sum, List.length_map, rows_length,
      mkResults_index_length]
  · unfold Analyzer.perm_count
    rw [valueCounts_map_snd_sum, rows_length, mkResults_index_length]

/-- C5 witness: a 2-die, 2-roll game whose rolls are `(1,2)` then `(2,1)`
(die 0 contributes `[1,2]`, die 1 contributes `[2,1]`): both count sums are
2, the two rolls share one combination key, and each ordered roll is its
own permutation entry. -/
theorem C5_combo_perm_counts_witness :
    ((Analyzer.combo_count (mkResults [[1, 2], [2, 1]] 2)).map Prod.snd).sum = 2
    ∧ ((Analyzer.perm_count (mkResults [[1, 2], [2, 1]] 2)).map Prod.snd).sum = 2
    ∧ comboKey [1, 2] = comboKey [2, 1]
    ∧ ((Analyzer.combo_count (mkResults [[1, 2], [2, 1]] 2)).map Prod.fst).Nodup
    ∧ ([1, 2], countOcc [1, 2] (mkResults [[1, 2], [2, 1]] 2).rows) ∈
        Analyzer.perm_count (mkResults [[1, 2], [2, 1]] 2) :=
  have h := C5_combo_perm_counts [[1, 2], [2, 1]] 2 (by decide)
  ⟨h.1, h.2.1, h.2.2.1 [1, 2] [2, 1] (by decide), h.2.2.2.1,
    h.2.2.2.2 [1, 2] (by decide)⟩

/-- C6: `jackpot` returns exactly the number of rows of the results table
whose per-row distinct-value count equals 1, and its value is at most the
number of rolls played (it is a `ℕ`, hence `≥ 0`). -/
theorem C6_jackpot_count_and_bound (outs : List (List ℤ)) (n : ℕ) :
    Analyzer.jackpot (mkResults outs n) =
      (mkResults outs n).rows.countP (fun r => decide (r.dedup.length = 1))
    ∧ Analyzer.jackpot (mkResults outs n) ≤ n := by
  refine ⟨rfl, ?_⟩
  calc Analyzer.jackpot (mkResults outs n)
      ≤ (mkResults outs n).rows.length := List.countP_le_length _
    _ = n := by rw [rows_length, mkResults_index_length]

theorem rows_getElem? {κ ι α : Type} [Inhabited α] (t : PFrame κ ι α) {i : ℕ}
    (h : i < t.index.length) : t.rows[i]? = some (t.rowAt i) := by
  unfold PFrame.rows
  rw [List.getElem?_map, List.getElem?_range h]
  rfl

/-- C7: `face_counts` over a played game's table has pairwise-distinct face
columns, exactly one column per face value observed anywhere in the
results, each cell counting the dice that showed that face on that roll
(absent combinations are the filled `0`, since the count of an absent face
is `0`), and every row of the returned table sums to the number of dice. -/
theorem C7_face_counts_shape (outs : List (List ℤ)) (n : ℕ)
    (_hrect : ∀ o ∈ outs, o.length = n) :
    ((Analyzer.face_counts (mkResults outs n)).cols.map Prod.fst).Nodup
    ∧ (∀ f : ℤ, f ∈ (Analyzer.face_counts (mkResults outs n)).cols.map Prod.fst
        ↔ f ∈ (mkResults outs n).allCells)
    ∧ (∀ f cnts, (f, cnts) ∈ (Analyzer.face_counts (mkResults outs n)).cols →
        ∀ i, i < n → cnts.getD i 0 = ((mkResults outs n).rowAt i).count f)
    ∧ (∀ i, i < n →
        ((Analyzer.face_counts (mkResults outs n)).cols.map
          (fun c => c.2.getD i 0)).sum = outs.length) := by
  set res := mkResults outs n with hres
  have hfacesnd : (res.allCells.dedup.insertionSort (· ≤ ·)).Nodup :=
    ((List.perm_insertionSort _ _).nodup_iff).2 res.allCells.nodup_dedup
  have hkeys : (Analyzer.face_counts res).cols.map Prod.fst =
      res.allCells.dedup.insertionSort (· ≤ ·) := by
    unfold Analyzer.face_counts
    rw [List.map_map]
    have h2 : (Prod.fst ∘ fun f : ℤ => (f, res.rows.map (fun r => r.count f))) =
        id := rfl
    rw [h2, List.map_id]
  have hcell : ∀ (f : ℤ) (i : ℕ), i < n →
      (res.rows.map (fun r => r.count f)).getD i 0 = (res.rowAt i).count f := by
    intro f i hi
    have hi' : i < res.index.length := by
      rw [hres, mkResults_index_length]; exact hi
    rw [List.getD_eq_getElem?_getD, List.getElem?_map, rows_getElem? res hi']
    rfl
  refine ⟨?_, ?_, ?_, ?_⟩
  · rw [hkeys]; exact hfacesnd
  · intro f
    rw [hkeys, List.mem_insertionSort, List.mem_dedup]
  · intro f cnts hmem i hi
    unfold Analyzer.face_counts at hmem
    rcases List.mem_map.1 hmem with ⟨f', hf', heq⟩
    have h1 : f' = f := congrArg Prod.fst heq
    have h2 : cnts = res.rows.map (fun r => r.count f') := (congrArg Prod.snd heq).symm
    rw [h2, h1]
    exact hcell f i hi
  · intro i hi
    have hi' : i < res.index.length := by
      rw [hres, mkResults_index_length]; exact hi
    unfold Analyzer.face_counts
    rw [List.map_map]
    have h3 : ((res.allCells.dedup.insertionSort (· ≤ ·)).map
        ((fun c : ℤ × List ℕ => c.2.getD i 0) ∘
          (fun f : ℤ => (f, res.rows.map (fun r => r.count f))))) =
        ((res.allCells.dedup.insertionSort (· ≤ ·)).map
          (fun f : ℤ => (res.rowAt i).count f)) :=
      List.map_congr_left (fun f _ => hcell f i hi)
    rw [h3, sum_map_count_of_superset _ _ hfacesnd (fun x hx =>
      (List.mem_insertionSort _).2 (List.mem_dedup.2
        (mem_allCells_of_mem_row (rowAt_mem_rows res hi') hx)))]
    rw [rowAt_length, hres, mkResults_cols_length]

/-- C7 witness: the 2-die, 2-roll game with rolls `(1,2)` and `(2,1)`. -/
theorem C7_face_counts_shape_witness :
    ((Analyzer.face_counts (mkResults [[1, 2], [2, 1]] 2)).cols.map Prod.fst).Nodup
    ∧ ((3 : ℤ) ∈ (Analyzer.face_counts (mkResults [[1, 2], [2, 1]] 2)).cols.map Prod.fst
        ↔ (3 : ℤ) ∈ (mkResults [[1, 2], [2, 1]] 2).allCells)
    ∧ (((Analyzer.face_counts (mkResults [[1, 2], [2, 1]] 2)).cols.map
          (fun c => c.2.getD 0 0)).sum = 2)
    ∧ (((Analyzer.face_counts (mkResults [[1, 2], [2, 1]] 2)).cols.map
          (fun c => c.2.getD 1 0)).sum = 2) :=
  have h := C7_face_counts_shape [[1, 2], [2, 1]] 2 (by decide)
  ⟨h.1, h.2.1 3, h.2.2.2 0 (by decide), h.2.2.2 1 (by decide)⟩

/-- `Die.__init__` establishes the die representation invariant. -/
theorem init_establishes_wf (sides : List ℤ) (d : Die)
    (h : Die.init sides = Except.ok d) : d.WF := by
  unfold Die.init at h
  split at h
  case isFalse => exact absurd h (by simp)
  case isTrue hc1 =>
    dsimp only at h
    split at h
    case isFalse => exact absurd h (by simp)
    case isTrue hc2 =>
      cases h
      refine ⟨rfl, rfl, ?_⟩
      intro c hc
      simp only [List.mem_singleton] at hc
      rw [hc]
      exact hc2

/-- `Die.change_weight` preserves the die representation invariant. -/
theorem change_weight_preserves_wf (d d' : Die) (f : ℤ) (w : ℚ)
    (hwf : d.WF) (h : d.change_weight f w = Except.ok d') : d'.WF := by
  obtain ⟨h1, h2, h3⟩ := hwf
  unfold Die.change_weight at h
  split at h
  case isFalse => exact absurd h (by simp)
  case isTrue hf =>
    split at h
    case isTrue => exact absurd h (by simp)
    case isFalse hw =>
      cases h
      refine ⟨h1, ?_, ?_⟩
      · show ((d.die.cols.map _).map Prod.fst) = ["Weight"]
        rw [List.map_map]
        have hcomp : (Prod.fst ∘ fun c : String × List ℚ =>
            if c.1 = "Weight" then (c.1, c.2.set (d.die.index.indexOf f) w)
            else c) = Prod.fst := by
          funext c
          by_cases hcw : c.1 = "Weight" <;> simp [Function.comp, hcw]
        rw [hcomp]
        exact h2
      · intro c hc
        rcases List.mem_map.1 hc with ⟨c0, hc0, rfl⟩
        by_cases hcw : c0.1 = "Weight"
        · rw [if_pos hcw]
          show (c0.2.set (d.die.index.indexOf f) w).length = d.sides.length
          rw [List.length_set]
          exact h3 c0 hc0
        · rw [if_neg hcw]
          exact h3 c0 hc0

/-- C8: for every die satisfying the representation invariant — every die
the class's API can produce, whatever weights it currently stores — a face
of the die and a non-negative weight, `change_weight(f, w)` succeeds,
stores exactly `w` as the weight of `f`, and leaves every other face's
stored weight unchanged: no renormalization of the stored weights takes
place at set time. -/
theorem C8_change_weight_exact (d : Die) (f : ℤ) (w : ℚ)
    (hwf : d.WF) (hf : f ∈ d.sides) (hw : 0 ≤ w) :
    ((d.change_weight f w).map (fun d' => d'.weightOf f)) = Except.ok w
    ∧ (∀ f' ∈ d.sides, f' ≠ f →
        (d.change_weight f w).map (fun d' => d'.weightOf f') =
          Except.ok (d.weightOf f')) := by
  obtain ⟨hidxeq, hnames, hlens⟩ := hwf
  obtain ⟨W, hW⟩ : ∃ W : List ℚ, d.die.cols = [("Weight", W)] := by
    rcases hcc : d.die.cols with - | ⟨c, t⟩
    · rw [hcc] at hnames
      exact absurd hnames (by simp)
    · rw [hcc] at hnames
      simp only [List.map_cons, List.cons.injEq, List.map_eq_nil_iff] at hnames
      exact ⟨c.2, by rw [hnames.2, ← hnames.1]⟩
  have hWlen : W.length = d.sides.length :=
    hlens ("Weight", W) (by rw [hW]; exact List.mem_singleton_self _)
  have hidx : d.sides.indexOf f < d.sides.length := List.indexOf_lt_length.2 hf
  have hidx' : d.sides.indexOf f < W.length := by rw [hWlen]; exact hidx
  unfold Die.change_weight
  rw [if_pos hf, if_neg (not_lt.2 hw)]
  simp only [Except.map, Die.weightOf, PFrame.setCell, PFrame.colGet, hW,
    hidxeq, List.map_cons, List.map_nil, List.find?_cons, decide_True,
    if_true, eq_self_iff_true, Option.map_some', Option.getD_some,
    Except.ok.injEq]
  constructor
  · exact getD_set_self _ _ _ _ hidx'
  · intro f' hf' hne
    rw [getD_set_ne _ _ _
      (fun heq => hne ((List.indexOf_inj hf' hf).1 heq.symm))]

/-- C8 witness: a die whose stored weights already differ from the
constructor's defaults (faces `[1,2,3]`, weights `[4, 1, 1/2]`): setting
face 2 to 5/2 reads back exactly 5/2 and face 1 keeps its weight 4. -/
theorem C8_change_weight_exact_witness :
    ((({ sides := [1, 2, 3],
         die := { indexName := some "Faces", index := [1, 2, 3],
                  cols := [("Weight", [4, 1, 1 / 2])] } } : Die).change_weight
        2 (5 / 2)).map (fun d' => d'.weightOf 2)) = Except.ok (5 / 2)
    ∧ ((({ sides := [1, 2, 3],
           die := { indexName := some "Faces", index := [1, 2, 3],
                    cols := [("Weight", [4, 1, 1 / 2])] } } : Die).change_weight
        2 (5 / 2)).map (fun d' => d'.weightOf 1)) =
      Except.ok
        (({ sides := [1, 2, 3],
            die := { indexName := some "Faces", index := [1, 2, 3],
                     cols := [("Weight", [4, 1, 1 / 2])] } } : Die).weightOf 1) :=
  have h := C8_change_weight_exact
    { sides := [1, 2, 3],
      die := { indexName := some "Faces", index := [1, 2, 3],
               cols := [("Weight", [4, 1, 1 / 2])] } }
    2 (5 / 2) (by decide) (by decide) (by norm_num)
  ⟨h.1, h.2 1 (by decide) (by decide)⟩

/-- C9: `show(form)` raises a `ValueError`-kind error for every `form` when
the game has never been played, and, once played, for every `form` other
than `'wide'` and `'narrow'`. -/
theorem C9_show_form_errors (g : Game) (form : String) :
    (g.results = none → g.show form = Except.error Err.valueError)
    ∧ (∀ res, g.results = some res → form ≠ "wide" → form ≠ "narrow" →
        g.show form = Except.error Err.valueError) := by
  constructor
  · intro h
    unfold Game.show
    rw [h]
  · intro res h hw hn
    unfold Game.show
    rw [h]
    dsimp only
    rw [if_neg hw, if_neg hn]

/-- C9 witness: an unplayed game rejects `'wide'`, and a played game
rejects the form string `'oops'`. -/
theorem C9_show_form_errors_witness :
    ({ dice := [], results := none } : Game).show "wide" =
      Except.error Err.valueError
    ∧ ({ dice := [], results := some (mkResults [[1]] 1) } : Game).show "oops" =
      Except.error Err.valueError :=
  ⟨(C9_show_form_errors { dice := [], results := none } "wide").1 rfl,
   (C9_show_form_errors { dice := [], results := some (mkResults [[1]] 1) }
      "oops").2 (mkResults [[1]] 1) rfl (by decide) (by decide)⟩

/-- C10: constructing an `Analyzer` from a never-played game raises a
`ValueError`-kind error (construction eagerly calls
`game.show(form='wide')`, which raises) rather than producing an analyzer
with an absent snapshot. -/
theorem C10_analyzer_init_unplayed (g : Game) (h : g.results = none) :
    Analyzer.init g = Except.error Err.valueError := by
  unfold Analyzer.init Game.show
  rw [h]

/-- C10 witness: the unplayed empty-dice game. -/
theorem C10_analyzer_init_unplayed_witness :
    Analyzer.init { dice := [], results := none } =
      Except.error Err.valueError :=
  C10_analyzer_init_unplayed { dice := [], results := none } rfl

end MCSim
